import Mathlib

/-!
Verification of the IMDS token middleware
(aws/rust-runtime/aws-config/src/imds/client/token.rs).

The middleware loads a session token via a PUT request, caches it according
to the TTL declared by the server, and attaches it to outbound requests under
the x-aws-ec2-metadata-token header.  Pure functions of the source are
embedded directly; the `ExpiringCache` collaborator (whose implementation
file is not part of this excerpt) is modelled from the spec's contract.
-/

namespace Imds

/-- Bytes of the Rust `u8` type, modelled as natural numbers. -/
abbrev Byte := Nat

/-- Constant X_AWS_EC2_METADATA_TOKEN_TTL_SECONDS from token.rs line 47. -/
def X_AWS_EC2_METADATA_TOKEN_TTL_SECONDS : String :=
  "x-aws-ec2-metadata-token-ttl-seconds"

/-- Constant X_AWS_EC2_METADATA_TOKEN from token.rs line 48. -/
def X_AWS_EC2_METADATA_TOKEN : String := "x-aws-ec2-metadata-token"

/-- Constant TOKEN_REFRESH_BUFFER from token.rs line 45, in seconds. -/
def TOKEN_REFRESH_BUFFER : Nat := 120

/-- Validity of a single byte of an `http::HeaderValue`, as checked by
`HeaderValue::from_maybe_shared` in the http crate: a byte is legal when it
is horizontal tab, or at least 32 and not 127 (DEL). -/
def headerValueByteValid (b : Byte) : Bool :=
  b == 9 || (32 ≤ b && b != 127)

/-- Embedding of `HeaderValue::from_maybe_shared(bytes)`: succeeds with the
byte payload exactly when every byte is a legal header-value byte. -/
def headerValueFromBytes (bs : List Byte) : Option (List Byte) :=
  if bs.all headerValueByteValid then some bs else none

/-- Visible-ASCII test used by `HeaderValue::to_str` in the http crate:
each byte must be in 32..=126 or be horizontal tab. -/
def visibleAscii (b : Byte) : Bool :=
  (32 ≤ b && b < 127) || b == 9

/-- Embedding of `HeaderValue::to_str`: succeeds, yielding the bytes as
characters, exactly when every byte is visible ASCII. -/
def headerValueToStr (bs : List Byte) : Option (List Char) :=
  if bs.all visibleAscii then some (bs.map Char.ofNat) else none

/-- Digit-run part of Rust's `u64::from_str`: at least one character, all
decimal digits, and the accumulated value must fit in 64 bits. -/
def parseDigitsU64 (cs : List Char) : Option Nat :=
  if cs.isEmpty then none
  else if cs.all Char.isDigit then
    let n := cs.foldl (fun a c => a * 10 + (c.toNat - 48)) 0
    if n < 2 ^ 64 then some n else none
  else none

/-- Embedding of Rust's `str::parse::<u64>`: an optional leading plus sign
followed by a non-empty run of decimal digits whose value fits in `u64`. -/
def parseU64 (cs : List Char) : Option Nat :=
  match cs with
  | '+' :: rest => parseDigitsU64 rest
  | _ => parseDigitsU64 cs

/-- Error type `TokenError` from imds/client (spec section 3). -/
inductive TokenError where
  | InvalidParameters
  | Forbidden
  | NoTtl
  | InvalidTtl
  | InvalidToken
deriving DecidableEq, Repr

/-- Modelled from the spec: `SdkError` of the external smithy client, the
error of `client.call` — either a transport-level failure or the service
error produced by response parsing (here `TokenError`). -/
inductive SdkError where
  | ConstructionFailure
  | DispatchFailure (message : String)
  | ResponseError (status : Nat)
  | ServiceError (error : TokenError)
deriving DecidableEq, Repr

/-- Modelled from the spec: `ImdsError` wraps transport/retry failure
(`FailedToLoadToken`) or propagates a `TokenError` (spec section 3); its
defining file imds/client.rs is not part of this excerpt.  Only the
`FailedToLoadToken` variant is used by the token middleware. -/
inductive ImdsError where
  | FailedToLoadToken (cause : SdkError)
deriving DecidableEq, Repr

/-- Struct `Token` from token.rs lines 51-55: a header value payload and an
absolute expiry instant (modelled in whole seconds). -/
structure Token where
  value : List Byte
  expiry : Nat
deriving DecidableEq, Repr

/-- HTTP response as consumed by `GetTokenResponseHandler::parse`: a status
code, a header map, and a byte body. -/
structure Response where
  status : Nat
  headers : List (String × List Byte)
  body : List Byte
deriving DecidableEq, Repr

/-- First-match lookup in a header map, as `HeaderMap::get`. -/
def getHeader (hs : List (String × List Byte)) (name : String) : Option (List Byte) :=
  match hs with
  | [] => none
  | (n, v) :: rest => if n = name then some v else getHeader rest name

/-- Embedding of `GetTokenResponseHandler::parse` (token.rs lines 166-186).
`now` is the instant the injected clock reports when the response is parsed.
Status 400 and 403 are rejected first; then the body must form a valid
header value; then the TTL header must be present, convert to a string, and
parse as a `u64`; the expiry is the parse-time clock reading plus the TTL. -/
def parse (now : Nat) (response : Response) : Except TokenError Token :=
  if response.status = 400 then Except.error TokenError.InvalidParameters
  else if response.status = 403 then Except.error TokenError.Forbidden
  else
    match headerValueFromBytes response.body with
    | none => Except.error TokenError.InvalidToken
    | some value =>
      match getHeader response.headers X_AWS_EC2_METADATA_TOKEN_TTL_SECONDS with
      | none => Except.error TokenError.NoTtl
      | some ttlBytes =>
        match headerValueToStr ttlBytes with
        | none => Except.error TokenError.InvalidTtl
        | some s =>
          match parseU64 s with
          | none => Except.error TokenError.InvalidTtl
          | some ttl => Except.ok { value := value, expiry := now + ttl }

/-- Outbound HTTP request as seen by the middleware. -/
structure Request where
  method : String
  uri : String
  headers : List (String × List Byte)
  body : List Byte
deriving DecidableEq, Repr

/-- Embedding of `HeaderMap::insert`: stores the value under the name,
replacing any previous value stored under that name. -/
def insertHeader (name : String) (value : List Byte) (hs : List (String × List Byte)) :
    List (String × List Byte) :=
  (name, value) :: hs.filter (fun p => p.1 ≠ name)

/-- The header-insertion step of `add_token` (token.rs lines 112-117): the
token value is inserted under x-aws-ec2-metadata-token, everything else of
the request is kept. -/
def attachToken (token : Token) (request : Request) : Request :=
  { request with headers := insertHeader X_AWS_EC2_METADATA_TOKEN token.value request.headers }

/-- Modelled from the spec: `ExpiringCache::yield_or_clear_if_expired`
(spec section 4.1; the cache implementation file is not part of this
excerpt).  If a value is present and `now` is before its hard expiry it is
returned and kept; at or past hard expiry the slot is cleared and `none`
returned.  The cache slot is `Option (value, hard expiry)`. -/
def yield_or_clear_if_expired {V : Type} (now : Nat) (cache : Option (V × Nat)) :
    Option V × Option (V × Nat) :=
  match cache with
  | some (v, e) => if now < e then (some v, cache) else (none, none)
  | none => (none, none)

/-- Modelled from the spec: sequential contract of `ExpiringCache::get_or_load`
(spec section 4.1).  If the slot holds an unexpired value it is returned
without invoking the loader; otherwise the loader runs once, a success is
stored, and a failure leaves the cache empty.  The third component records
whether the loader was invoked. -/
def get_or_load {V E : Type} (now : Nat) (cache : Option (V × Nat))
    (loader : Except E (V × Nat)) : Except E V × Option (V × Nat) × Bool :=
  match cache with
  | some (v, e) =>
    if now < e then (Except.ok v, cache, false)
    else
      match loader with
      | Except.ok (v2, e2) => (Except.ok v2, some (v2, e2), true)
      | Except.error err => (Except.error err, none, true)
  | none =>
    match loader with
    | Except.ok (v2, e2) => (Except.ok v2, some (v2, e2), true)
    | Except.error err => (Except.error err, none, true)

/-- Embedding of `TokenMiddleware::add_token` (token.rs lines 99-118) with
the cache slot threaded explicitly and the loader outcome supplied as data.
Returns the processed request (or error), the new cache slot, and whether
`get_or_load` was called. -/
def add_token (now : Nat) (cache : Option (Token × Nat))
    (loader : Except ImdsError (Token × Nat)) (request : Request) :
    Except ImdsError Request × Option (Token × Nat) × Bool :=
  match yield_or_clear_if_expired now cache with
  | (some token, cache1) => (Except.ok (attachToken token request), cache1, false)
  | (none, cache1) =>
    match get_or_load now cache1 loader with
    | (Except.ok token, cache2, _) => (Except.ok (attachToken token request), cache2, true)
    | (Except.error e, cache2, _) => (Except.error e, cache2, true)

/-- Modelled from the spec: `Endpoint::set_endpoint` of the external
smithy-http crate rewrites the relative path onto the configured endpoint
(spec section 6: the endpoint resolver rewrites a relative path into the
fully-qualified metadata-service URI). -/
def setEndpoint (endpoint : String) (path : String) : String :=
  endpoint ++ path

/-- Decimal rendering of a `u64`, as the http crate renders the integer
header value in `request.header(name, self.token_ttl.as_secs())`. -/
def natToDecimal (n : Nat) : List Byte :=
  (toString n).data.map Char.toNat

/-- Request construction of `TokenMiddleware::get_token` (token.rs lines
120-134): a PUT to /latest/api/token under the configured endpoint with an
empty body and the configured TTL in the dedicated header. -/
def buildTokenRequest (endpoint : String) (tokenTtlSecs : Nat) : Request :=
  { method := "PUT"
    uri := setEndpoint endpoint "/latest/api/token"
    headers := [(X_AWS_EC2_METADATA_TOKEN_TTL_SECONDS, natToDecimal tokenTtlSecs)]
    body := [] }

/-- Embedding of `TokenMiddleware::get_token` (token.rs lines 120-145): the
built request is sent through the external client (modelled as a function
argument), transport failures and parse-classified failures both surface as
`ImdsError::FailedToLoadToken`, and a parsed token is paired with its own
expiry for the cache's load contract. -/
def get_token (parseTime : Nat) (endpoint : String) (tokenTtlSecs : Nat)
    (send : Request → Except SdkError Response) : Except ImdsError (Token × Nat) :=
  match send (buildTokenRequest endpoint tokenTtlSecs) with
  | Except.error e => Except.error (ImdsError.FailedToLoadToken e)
  | Except.ok response =>
    match parse parseTime response with
    | Except.error te => Except.error (ImdsError.FailedToLoadToken (SdkError.ServiceError te))
    | Except.ok token => Except.ok (token, token.expiry)

/-- Bytes of a string, for concrete header and body values. -/
def strBytes (s : String) : List Byte :=
  s.data.map Char.toNat

/-- Modelled from the spec: events of the `ExpiringCache` single-flight
state machine (spec sections 4.1 and 5).  `arrive` is one caller entering
`get_or_load`; the `complete` events are the shared in-flight load finishing
with a success or a failure and broadcasting to the attached waiters. -/
inductive CacheEvent (V E : Type) where
  | arrive
  | completeOk (value : V) (expiry : Nat)
  | completeErr (error : E)

/-- Modelled from the spec: state of the `ExpiringCache` single-flight
machine — the slot, whether a load is in flight, how many callers are
attached to it, how many times the loader has been invoked, and the results
delivered so far to callers. -/
structure CacheSys (V E : Type) where
  slot : Option (V × Nat)
  loading : Bool
  waiters : Nat
  loaderCalls : Nat
  delivered : List (Except E V)
deriving Repr

/-- Modelled from the spec: a caller that found no usable value attaches to
the in-flight load if one exists, otherwise starts one (test-and-set,
spec section 5), clearing any stale slot. -/
def cacheAttach {V E : Type} (s : CacheSys V E) : CacheSys V E :=
  if s.loading then { s with waiters := s.waiters + 1 }
  else
    { s with slot := none, loading := true, waiters := s.waiters + 1,
             loaderCalls := s.loaderCalls + 1 }

/-- Modelled from the spec: one transition of the `ExpiringCache`
single-flight machine at instant `now`.  An arriving caller is served from
an unexpired slot, otherwise attaches; a completing load broadcasts its
result to every attached waiter, storing a success and leaving the cache
empty on failure (no negative caching, spec section 7). -/
def cacheStep {V E : Type} (now : Nat) (s : CacheSys V E) :
    CacheEvent V E → CacheSys V E
  | CacheEvent.arrive =>
    match s.slot with
    | some (v, e) =>
      if now < e then { s with delivered := s.delivered ++ [Except.ok v] }
      else cacheAttach s
    | none => cacheAttach s
  | CacheEvent.completeOk v e =>
    if s.loading then
      { s with slot := some (v, e), loading := false, waiters := 0,
               delivered := s.delivered ++ List.replicate s.waiters (Except.ok v) }
    else s
  | CacheEvent.completeErr err =>
    if s.loading then
      { s with slot := none, loading := false, waiters := 0,
               delivered := s.delivered ++ List.replicate s.waiters (Except.error err) }
    else s

/-- Run of the single-flight machine over a list of events. -/
def cacheRun {V E : Type} (now : Nat) (s : CacheSys V E) :
    List (CacheEvent V E) → CacheSys V E
  | [] => s
  | ev :: rest => cacheRun now (cacheStep now s ev) rest

/-- Initial machine state with a given slot and no activity. -/
def initCache {V E : Type} (slot : Option (V × Nat)) : CacheSys V E :=
  { slot := slot, loading := false, waiters := 0, loaderCalls := 0, delivered := [] }

/-- The slot is empty or holds a value whose hard expiry has passed. -/
def emptyOrExpired {V : Type} (now : Nat) (slot : Option (V × Nat)) : Prop :=
  match slot with
  | none => True
  | some (_, e) => e ≤ now

/-- Concrete outbound request used to instantiate middleware theorems. -/
def sampleRequest : Request :=
  { method := "GET"
    uri := "/latest/meta-data/instance-id"
    headers := [("accept", strBytes "text/plain")]
    body := [] }

/-- Concrete token used to instantiate middleware theorems. -/
def sampleToken : Token :=
  { value := strBytes "AQAometok", expiry := 600 }

theorem cacheRun_append {V E : Type} (now : Nat) (s : CacheSys V E)
    (l1 l2 : List (CacheEvent V E)) :
    cacheRun now s (l1 ++ l2) = cacheRun now (cacheRun now s l1) l2 := by
  induction l1 generalizing s with
  | nil => rfl
  | cons ev rest ih => simp [cacheRun, ih]

theorem cacheRun_arrives_loading {V E : Type} (now k : Nat) :
    ∀ (w c : Nat) (d : List (Except E V)),
      cacheRun now (⟨none, true, w, c, d⟩ : CacheSys V E)
          (List.replicate k CacheEvent.arrive) =
        ⟨none, true, w + k, c, d⟩ := by
  induction k with
  | zero => intro w c d; simp [cacheRun]
  | succ k ih =>
    intro w c d
    rw [List.replicate_succ]
    have h1 : cacheStep now (⟨none, true, w, c, d⟩ : CacheSys V E) CacheEvent.arrive =
        ⟨none, true, w + 1, c, d⟩ := by
      simp [cacheStep, cacheAttach]
    show cacheRun now (cacheStep now (⟨none, true, w, c, d⟩ : CacheSys V E) CacheEvent.arrive)
        (List.replicate k CacheEvent.arrive) = _
    rw [h1, ih]
    have hw : w + 1 + k = w + (k + 1) := by omega
    rw [hw]

/-- C1: for any number N ≥ 1 of concurrent get_or_load calls on an empty or
expired ExpiringCache, the loader is invoked exactly once; all N callers
observe the same success value, or, on a failed load, all observe the same
error and the cache is left empty so the next caller re-invokes the loader.
Formalised over the spec-modelled single-flight machine: N arrivals on an
empty-or-expired slot followed by the shared load completing. -/
theorem single_flight_invariant {V E : Type} (now N : Nat) (hN : 1 ≤ N)
    (slot0 : Option (V × Nat)) (hslot : emptyOrExpired now slot0)
    (v : V) (e : Nat) (err : E) :
    ((cacheRun now (initCache slot0)
        (List.replicate N (CacheEvent.arrive : CacheEvent V E) ++ [CacheEvent.completeOk v e])).loaderCalls = 1 ∧
      (cacheRun now (initCache slot0)
        (List.replicate N (CacheEvent.arrive : CacheEvent V E) ++ [CacheEvent.completeOk v e])).delivered =
        List.replicate N (Except.ok v) ∧
      (cacheRun now (initCache slot0)
        (List.replicate N (CacheEvent.arrive : CacheEvent V E) ++ [CacheEvent.completeOk v e])).slot = some (v, e)) ∧
    ((cacheRun now (initCache slot0)
        (List.replicate N (CacheEvent.arrive : CacheEvent V E) ++ [CacheEvent.completeErr err])).loaderCalls = 1 ∧
      (cacheRun now (initCache slot0)
        (List.replicate N (CacheEvent.arrive : CacheEvent V E) ++ [CacheEvent.completeErr err])).delivered =
        List.replicate N (Except.error err) ∧
      (cacheRun now (initCache slot0)
        (List.replicate N (CacheEvent.arrive : CacheEvent V E) ++ [CacheEvent.completeErr err])).slot = none) := by
  obtain ⟨k, rfl⟩ : ∃ k, N = k + 1 := ⟨N - 1, by omega⟩
  have hstep1 : cacheStep now (initCache slot0 : CacheSys V E) CacheEvent.arrive =
      ⟨none, true, 1, 1, []⟩ := by
    match slot0, hslot with
    | none, _ => simp [initCache, cacheStep, cacheAttach]
    | some (v0, e0), h =>
      have hne : ¬ now < e0 := by
        simp only [emptyOrExpired] at h
        omega
      simp [initCache, cacheStep, cacheAttach, hne]
  have hrun : cacheRun now (initCache slot0 : CacheSys V E)
      (List.replicate (k + 1) CacheEvent.arrive) = ⟨none, true, 1 + k, 1, []⟩ := by
    rw [List.replicate_succ]
    show cacheRun now (cacheStep now (initCache slot0) CacheEvent.arrive)
        (List.replicate k CacheEvent.arrive) = _
    rw [hstep1, cacheRun_arrives_loading]
  have hcount : 1 + k = k + 1 := by omega
  refine ⟨⟨?_, ?_, ?_⟩, ?_, ?_, ?_⟩ <;>
    rw [cacheRun_append, hrun] <;>
    simp [cacheRun, cacheStep, hcount]

theorem single_flight_invariant_witness :
    ((cacheRun 5 (initCache (none : Option (Nat × Nat)))
        (List.replicate 2 (CacheEvent.arrive : CacheEvent Nat String) ++ [CacheEvent.completeOk 7 99])).loaderCalls = 1 ∧
      (cacheRun 5 (initCache (none : Option (Nat × Nat)))
        (List.replicate 2 (CacheEvent.arrive : CacheEvent Nat String) ++ [CacheEvent.completeOk 7 99])).delivered =
        List.replicate 2 (Except.ok 7) ∧
      (cacheRun 5 (initCache (none : Option (Nat × Nat)))
        (List.replicate 2 (CacheEvent.arrive : CacheEvent Nat String) ++ [CacheEvent.completeOk 7 99])).slot =
        some (7, 99)) ∧
    ((cacheRun 5 (initCache (none : Option (Nat × Nat)))
        (List.replicate 2 (CacheEvent.arrive : CacheEvent Nat String) ++ [CacheEvent.completeErr "boom"])).loaderCalls = 1 ∧
      (cacheRun 5 (initCache (none : Option (Nat × Nat)))
        (List.replicate 2 (CacheEvent.arrive : CacheEvent Nat String) ++ [CacheEvent.completeErr "boom"])).delivered =
        List.replicate 2 (Except.error "boom") ∧
      (cacheRun 5 (initCache (none : Option (Nat × Nat)))
        (List.replicate 2 (CacheEvent.arrive : CacheEvent Nat String) ++ [CacheEvent.completeErr "boom"])).slot = none) :=
  single_flight_invariant 5 2 (by decide) none (by trivial) 7 99 "boom"

theorem getHeader_insertHeader_self (name : String) (value : List Byte)
    (hs : List (String × List Byte)) :
    getHeader (insertHeader name value hs) name = some value := by
  simp [insertHeader, getHeader]

theorem getHeader_cons (n0 : String) (v0 : List Byte) (tl : List (String × List Byte))
    (name : String) :
    getHeader ((n0, v0) :: tl) name = if n0 = name then some v0 else getHeader tl name := rfl

theorem getHeader_filter_ne (hs : List (String × List Byte)) (name other : String)
    (h : other ≠ name) :
    getHeader (hs.filter (fun p => p.1 ≠ name)) other = getHeader hs other := by
  induction hs with
  | nil => rfl
  | cons hd tl ih =>
    obtain ⟨n0, v0⟩ := hd
    rw [List.filter_cons]
    by_cases hn : n0 = name
    · rw [if_neg (by simp [hn]), ih, getHeader_cons,
        if_neg (by rw [hn]; exact Ne.symm h)]
    · rw [if_pos (by simp [hn]), getHeader_cons, getHeader_cons]
      by_cases ho : n0 = other
      · rw [if_pos ho, if_pos ho]
      · rw [if_neg ho, if_neg ho, ih]

theorem getHeader_insertHeader_other (name : String) (value : List Byte)
    (hs : List (String × List Byte)) (other : String) (h : other ≠ name) :
    getHeader (insertHeader name value hs) other = getHeader hs other := by
  simp only [insertHeader, getHeader]
  rw [if_neg (Ne.symm h)]
  exact getHeader_filter_ne hs name other h

theorem parse_success_path (now : Nat) (r : Response)
    (h400 : r.status ≠ 400) (h403 : r.status ≠ 403) :
    (∃ token, parse now r = Except.ok token) ∨
    parse now r = Except.error TokenError.InvalidToken ∨
    parse now r = Except.error TokenError.NoTtl ∨
    parse now r = Except.error TokenError.InvalidTtl := by
  unfold parse
  rw [if_neg h400, if_neg h403]
  cases hb : headerValueFromBytes r.body with
  | none => simp [hb]
  | some value =>
    cases hh : getHeader r.headers X_AWS_EC2_METADATA_TOKEN_TTL_SECONDS with
    | none => simp [hb, hh]
    | some ttlBytes =>
      cases hs : headerValueToStr ttlBytes with
      | none => simp [hb, hh, hs]
      | some s =>
        cases hp : parseU64 s with
        | none => simp [hb, hh, hs, hp]
        | some ttl =>
          simp only [hb, hh, hs, hp]
          exact Or.inl ⟨_, rfl⟩

/-- C4: parse returns InvalidParameters exactly on status 400 and Forbidden
exactly on status 403; these classifications are produced by no other status
and by nothing else in the parser, and the parser itself performs no retry
(it is a pure function of the response). -/
theorem parse_fatal_status_classification (now : Nat) (r : Response) :
    (parse now r = Except.error TokenError.InvalidParameters ↔ r.status = 400) ∧
    (parse now r = Except.error TokenError.Forbidden ↔ r.status = 403) := by
  constructor
  · constructor
    · intro h
      by_contra h400
      by_cases h403 : r.status = 403
      · unfold parse at h
        rw [if_neg h400, if_pos h403] at h
        simp at h
      · rcases parse_success_path now r h400 h403 with ⟨t, ht⟩ | ht | ht | ht <;>
          rw [ht] at h <;> simp at h
    · intro h
      unfold parse
      rw [if_pos h]
  · constructor
    · intro h
      by_contra h403
      by_cases h400 : r.status = 400
      · unfold parse at h
        rw [if_pos h400] at h
        simp at h
      · rcases parse_success_path now r h400 h403 with ⟨t, ht⟩ | ht | ht | ht <;>
          rw [ht] at h <;> simp at h
    · intro h
      unfold parse
      have h400 : r.status ≠ 400 := by omega
      rw [if_neg h400, if_pos h]

/-- C6: for a response whose status is neither 400 nor 403, a body whose
bytes do not form a valid header value is rejected as InvalidToken. -/
theorem parse_invalid_token_bytes (now : Nat) (r : Response)
    (h400 : r.status ≠ 400) (h403 : r.status ≠ 403)
    (hbody : r.body.all headerValueByteValid = false) :
    parse now r = Except.error TokenError.InvalidToken := by
  unfold parse
  rw [if_neg h400, if_neg h403]
  simp [headerValueFromBytes, hbody]

theorem parse_invalid_token_bytes_witness :
    parse 0 { status := 200, headers := [], body := [0] } =
      Except.error TokenError.InvalidToken :=
  parse_invalid_token_bytes 0 { status := 200, headers := [], body := [0] }
    (by decide) (by decide) (by decide)

/-- C7: a TTL header of exactly 0 seconds is accepted: parse succeeds and
the token's expiry equals the clock reading observed at parse time. -/
theorem parse_zero_ttl_valid (now : Nat) (r : Response)
    (h400 : r.status ≠ 400) (h403 : r.status ≠ 403)
    (hbody : r.body.all headerValueByteValid = true)
    (httl : getHeader r.headers X_AWS_EC2_METADATA_TOKEN_TTL_SECONDS = some (strBytes "0")) :
    parse now r = Except.ok { value := r.body, expiry := now } := by
  unfold parse
  rw [if_neg h400, if_neg h403]
  have hz : headerValueToStr (strBytes "0") = some (Char.ofNat 48 :: []) := by decide
  have hp : parseU64 (Char.ofNat 48 :: []) = some 0 := by decide
  simp [headerValueFromBytes, hbody, httl, hz, hp]

theorem parse_zero_ttl_valid_witness :
    parse 77
        { status := 200,
          headers := [(X_AWS_EC2_METADATA_TOKEN_TTL_SECONDS, strBytes "0")],
          body := strBytes "tok" } =
      Except.ok { value := strBytes "tok", expiry := 77 } :=
  parse_zero_ttl_valid 77
    { status := 200,
      headers := [(X_AWS_EC2_METADATA_TOKEN_TTL_SECONDS, strBytes "0")],
      body := strBytes "tok" }
    (by decide) (by decide) (by decide) (by decide)

/-- C5: for a response whose status is neither 400 nor 403 and whose body is
a valid header value, a missing TTL header yields NoTtl, and a TTL header
whose value does not convert to a string and parse as a non-negative integer
number of seconds (the u64 parse of the source) yields InvalidTtl. -/
theorem parse_ttl_header_errors (now : Nat) (r : Response)
    (h400 : r.status ≠ 400) (h403 : r.status ≠ 403)
    (hbody : r.body.all headerValueByteValid = true) :
    (getHeader r.headers X_AWS_EC2_METADATA_TOKEN_TTL_SECONDS = none →
      parse now r = Except.error TokenError.NoTtl) ∧
    (∀ ttlBytes, getHeader r.headers X_AWS_EC2_METADATA_TOKEN_TTL_SECONDS = some ttlBytes →
      (headerValueToStr ttlBytes).bind parseU64 = none →
      parse now r = Except.error TokenError.InvalidTtl) := by
  constructor
  · intro hh
    unfold parse
    rw [if_neg h400, if_neg h403]
    simp [headerValueFromBytes, hbody, hh]
  · intro ttlBytes hh hbind
    unfold parse
    rw [if_neg h400, if_neg h403]
    cases hs : headerValueToStr ttlBytes with
    | none => simp [headerValueFromBytes, hbody, hh, hs]
    | some s =>
      rw [hs] at hbind
      simp only [Option.bind] at hbind
      simp [headerValueFromBytes, hbody, hh, hs, hbind]

theorem parse_ttl_header_errors_witness :
    parse 3 { status := 200, headers := [], body := strBytes "tok" } =
        Except.error TokenError.NoTtl ∧
    parse 3
        { status := 200,
          headers := [(X_AWS_EC2_METADATA_TOKEN_TTL_SECONDS, strBytes "12a")],
          body := strBytes "tok" } =
        Except.error TokenError.InvalidTtl := by
  constructor
  · exact (parse_ttl_header_errors 3 { status := 200, headers := [], body := strBytes "tok" }
      (by decide) (by decide) (by decide)).1 (by decide)
  · exact (parse_ttl_header_errors 3
      { status := 200,
        headers := [(X_AWS_EC2_METADATA_TOKEN_TTL_SECONDS, strBytes "12a")],
        body := strBytes "tok" }
      (by decide) (by decide) (by decide)).2 (strBytes "12a") (by decide) (by decide)

/-- C10: the parser rejects no status other than 400 and 403: for any other
status the result is a success or one of InvalidToken, NoTtl, InvalidTtl;
in particular a 500 response with a valid body and TTL header parses as a
successful Token. -/
theorem parse_other_statuses_not_rejected (now : Nat) (r : Response)
    (h400 : r.status ≠ 400) (h403 : r.status ≠ 403) :
    ((∃ token, parse now r = Except.ok token) ∨
      parse now r = Except.error TokenError.InvalidToken ∨
      parse now r = Except.error TokenError.NoTtl ∨
      parse now r = Except.error TokenError.InvalidTtl) ∧
    parse 0
        { status := 500,
          headers := [(X_AWS_EC2_METADATA_TOKEN_TTL_SECONDS, strBytes "21600")],
          body := strBytes "abc123" } =
      Except.ok { value := strBytes "abc123", expiry := 21600 } := by
  refine ⟨parse_success_path now r h400 h403, ?_⟩
  rfl

theorem parse_other_statuses_not_rejected_witness :
    ((∃ token,
        parse 0 { status := 500, headers := [], body := strBytes "x" } = Except.ok token) ∨
      parse 0 { status := 500, headers := [], body := strBytes "x" } =
        Except.error TokenError.InvalidToken ∨
      parse 0 { status := 500, headers := [], body := strBytes "x" } =
        Except.error TokenError.NoTtl ∨
      parse 0 { status := 500, headers := [], body := strBytes "x" } =
        Except.error TokenError.InvalidTtl) ∧
    parse 0
        { status := 500,
          headers := [(X_AWS_EC2_METADATA_TOKEN_TTL_SECONDS, strBytes "21600")],
          body := strBytes "abc123" } =
      Except.ok { value := strBytes "abc123", expiry := 21600 } :=
  parse_other_statuses_not_rejected 0 { status := 500, headers := [], body := strBytes "x" }
    (by decide) (by decide)

/-- C2: for a token-issuance response with a non-fatal status, a valid body
and a TTL header parsing as n, the parsed token carries the response body
verbatim and expires at the parse-time clock reading plus n seconds, and the
middleware attaches exactly that value under x-aws-ec2-metadata-token on the
outbound request. -/
theorem parse_round_trip_attach (tparse now : Nat) (r : Response) (n : Nat)
    (ttlBytes : List Byte) (s : List Char) (request : Request)
    (h400 : r.status ≠ 400) (h403 : r.status ≠ 403)
    (hbody : r.body.all headerValueByteValid = true)
    (hget : getHeader r.headers X_AWS_EC2_METADATA_TOKEN_TTL_SECONDS = some ttlBytes)
    (hstr : headerValueToStr ttlBytes = some s)
    (hparse : parseU64 s = some n) :
    ∃ token : Token,
      parse tparse r = Except.ok token ∧
      token.value = r.body ∧
      token.expiry = tparse + n ∧
      add_token now none (Except.ok (token, token.expiry)) request =
        (Except.ok (attachToken token request), some (token, token.expiry), true) ∧
      getHeader (attachToken token request).headers X_AWS_EC2_METADATA_TOKEN =
        some r.body := by
  refine ⟨{ value := r.body, expiry := tparse + n }, ?_, rfl, rfl, rfl, ?_⟩
  · unfold parse
    rw [if_neg h400, if_neg h403]
    simp [headerValueFromBytes, hbody, hget, hstr, hparse]
  · show getHeader (insertHeader X_AWS_EC2_METADATA_TOKEN r.body request.headers)
        X_AWS_EC2_METADATA_TOKEN = some r.body
    exact getHeader_insertHeader_self X_AWS_EC2_METADATA_TOKEN r.body request.headers

theorem parse_round_trip_attach_witness :
    ∃ token : Token,
      parse 100
          { status := 200,
            headers := [(X_AWS_EC2_METADATA_TOKEN_TTL_SECONDS, strBytes "21600")],
            body := strBytes "abc123" } = Except.ok token ∧
      token.value = strBytes "abc123" ∧
      token.expiry = 100 + 21600 ∧
      add_token 0 none (Except.ok (token, token.expiry)) sampleRequest =
        (Except.ok (attachToken token sampleRequest), some (token, token.expiry), true) ∧
      getHeader (attachToken token sampleRequest).headers X_AWS_EC2_METADATA_TOKEN =
        some (strBytes "abc123") := by
  have h := parse_round_trip_attach 100 0
    { status := 200,
      headers := [(X_AWS_EC2_METADATA_TOKEN_TTL_SECONDS, strBytes "21600")],
      body := strBytes "abc123" }
    21600 (strBytes "21600") "21600".data sampleRequest
    (by decide) (by decide) (by decide) (by decide) (by decide) (by decide)
  exact h

/-- C8: every token-issuance request built by get_token is a PUT to
/latest/api/token under the configured endpoint with an empty body and a
single TTL header carrying the configured TTL in decimal. -/
theorem build_token_request_shape (endpoint : String) (ttlSecs : Nat) :
    (buildTokenRequest endpoint ttlSecs).method = "PUT" ∧
    (buildTokenRequest endpoint ttlSecs).uri = endpoint ++ "/latest/api/token" ∧
    (buildTokenRequest endpoint ttlSecs).body = [] ∧
    (buildTokenRequest endpoint ttlSecs).headers =
      [(X_AWS_EC2_METADATA_TOKEN_TTL_SECONDS, natToDecimal ttlSecs)] ∧
    getHeader (buildTokenRequest endpoint ttlSecs).headers
        X_AWS_EC2_METADATA_TOKEN_TTL_SECONDS = some (natToDecimal ttlSecs) := by
  refine ⟨rfl, rfl, rfl, rfl, ?_⟩
  rw [buildTokenRequest]
  simp [getHeader]

/-- C3: a token yielded by yield_or_clear_if_expired is used directly and
get_or_load is not called; only when no token is yielded does the middleware
call get_or_load with the loader, and a loader error is propagated unchanged
as the resulting ImdsError. -/
theorem add_token_cache_first (now : Nat) (cache : Option (Token × Nat))
    (loader : Except ImdsError (Token × Nat)) (request : Request) :
    (∀ token cache1, yield_or_clear_if_expired now cache = (some token, cache1) →
      add_token now cache loader request =
        (Except.ok (attachToken token request), cache1, false)) ∧
    (∀ cache1, yield_or_clear_if_expired now cache = (none, cache1) →
      (add_token now cache loader request).2.2 = true ∧
      ∀ err, loader = Except.error err →
        (add_token now cache loader request).1 = Except.error err) := by
  constructor
  · intro token cache1 hy
    unfold add_token
    rw [hy]
  · intro cache1 hy
    have hc1 : cache1 = none := by
      cases cache with
      | none =>
        simp [yield_or_clear_if_expired] at hy
        exact hy.symm
      | some p =>
        obtain ⟨v, e⟩ := p
        by_cases hlt : now < e
        · simp [yield_or_clear_if_expired, hlt] at hy
        · simp [yield_or_clear_if_expired, hlt] at hy
          exact hy.symm
    subst hc1
    unfold add_token
    rw [hy]
    constructor
    · cases loader with
      | ok p => obtain ⟨v2, e2⟩ := p; rfl
      | error err => rfl
    · intro err herr
      subst herr
      rfl

theorem add_token_cache_first_witness :
    add_token 0 (some (sampleToken, 600))
        (Except.error (ImdsError.FailedToLoadToken SdkError.ConstructionFailure))
        sampleRequest =
      (Except.ok (attachToken sampleToken sampleRequest), some (sampleToken, 600), false) ∧
    (add_token 0 none
        (Except.error (ImdsError.FailedToLoadToken SdkError.ConstructionFailure))
        sampleRequest).1 =
      Except.error (ImdsError.FailedToLoadToken SdkError.ConstructionFailure) := by
  constructor
  · exact (add_token_cache_first 0 (some (sampleToken, 600))
      (Except.error (ImdsError.FailedToLoadToken SdkError.ConstructionFailure))
      sampleRequest).1 sampleToken (some (sampleToken, 600)) rfl
  · exact ((add_token_cache_first 0 none
      (Except.error (ImdsError.FailedToLoadToken SdkError.ConstructionFailure))
      sampleRequest).2 none rfl).2
      (ImdsError.FailedToLoadToken SdkError.ConstructionFailure) rfl

/-- C9: when the middleware succeeds, the only change to the outbound
request is that the token value is stored under x-aws-ec2-metadata-token,
overwriting any prior value under that name; the method, URI and body are
unchanged, and every other header name keeps its previous value. -/
theorem add_token_frame (now : Nat) (cache : Option (Token × Nat))
    (loader : Except ImdsError (Token × Nat)) (request req2 : Request)
    (h : (add_token now cache loader request).1 = Except.ok req2) :
    ∃ token : Token,
      req2.method = request.method ∧
      req2.uri = request.uri ∧
      req2.body = request.body ∧
      req2.headers = insertHeader X_AWS_EC2_METADATA_TOKEN token.value request.headers ∧
      getHeader req2.headers X_AWS_EC2_METADATA_TOKEN = some token.value ∧
      ∀ name, name ≠ X_AWS_EC2_METADATA_TOKEN →
        getHeader req2.headers name = getHeader request.headers name := by
  unfold add_token at h
  rcases hy : yield_or_clear_if_expired now cache with ⟨pre, cache1⟩
  rw [hy] at h
  cases pre with
  | some token =>
    have hreq : attachToken token request = req2 := by simpa using h
    subst hreq
    refine ⟨token, rfl, rfl, rfl, rfl, getHeader_insertHeader_self _ _ _, ?_⟩
    intro name hn
    exact getHeader_insertHeader_other _ _ _ _ hn
  | none =>
    have h2 : (match get_or_load now cache1 loader with
        | (Except.ok token, cache2, _) => (Except.ok (attachToken token request), cache2, true)
        | (Except.error e, cache2, _) => (Except.error e, cache2, true)).1 =
        Except.ok req2 := h
    rcases hg : get_or_load now cache1 loader with ⟨res, rest⟩
    rw [hg] at h2
    cases res with
    | ok token =>
      have hreq : attachToken token request = req2 := by simpa using h2
      subst hreq
      refine ⟨token, rfl, rfl, rfl, rfl, getHeader_insertHeader_self _ _ _, ?_⟩
      intro name hn
      exact getHeader_insertHeader_other _ _ _ _ hn
    | error e => simp at h2

theorem add_token_frame_witness :
    ∃ token : Token,
      (attachToken sampleToken sampleRequest).method = sampleRequest.method ∧
      (attachToken sampleToken sampleRequest).uri = sampleRequest.uri ∧
      (attachToken sampleToken sampleRequest).body = sampleRequest.body ∧
      (attachToken sampleToken sampleRequest).headers =
        insertHeader X_AWS_EC2_METADATA_TOKEN token.value sampleRequest.headers ∧
      getHeader (attachToken sampleToken sampleRequest).headers X_AWS_EC2_METADATA_TOKEN =
        some token.value ∧
      ∀ name, name ≠ X_AWS_EC2_METADATA_TOKEN →
        getHeader (attachToken sampleToken sampleRequest).headers name =
          getHeader sampleRequest.headers name :=
  add_token_frame 0 (some (sampleToken, 600))
    (Except.error (ImdsError.FailedToLoadToken SdkError.ConstructionFailure))
    sampleRequest (attachToken sampleToken sampleRequest) rfl

end Imds
